import Mathlib

/-
  Verification of the ftml wikitext compiler core (wikijump repository).

  Shallow embedding of:
  - src/ftml/src/parsing/rule/impls/list.rs   (list rule: parse_list, build_list_element)
  - src/ftml/src/render/text/elements.rs      (text renderer: render_element, get_full_url)
  - src/ftml/ftml-http/src/routes.rs          (transport routes and their content-length limit)

  Infrastructure that the excerpt references but does not contain (the tokenizer,
  the Parser cursor, collect_consume, process_depths, TextContext) is modelled
  from the specification; each such definition carries a doc comment starting
  with "Modelled from the spec:".
-/

namespace Ftml

/-- Token kinds relevant to the list rule and its surroundings.
Modelled from the spec: the tokenizer recognizes list bullet/numbered markers,
whitespace runs, line breaks, paragraph breaks (blank line), generic text runs,
plus start/end sentinels bounding every stream. -/
inductive Token where
  | inputStart
  | inputEnd
  | lineBreak
  | paragraphBreak
  | whitespace
  | bulletItem
  | numberedItem
  | text
deriving DecidableEq

/-- A token together with its raw slice of the source text
(the span is recoverable from the slice and position and is omitted). -/
structure ExtractedToken where
  token : Token
  slice : String
deriving DecidableEq

/-- Warning kinds; only RuleFailed is exercised by the excerpted code
(the full set is an open question of the spec). -/
inductive ParseWarningKind where
  | ruleFailed
deriving DecidableEq

/-- A non-fatal parse warning (span omitted). -/
structure ParseWarning where
  kind : ParseWarningKind
deriving DecidableEq

/-- Failure channel of a parse attempt: a warning-carrying failure (Err in Rust),
a panic (assert! or .expect in Rust), or exhaustion of the explicit fuel that
replaces Rust's unbounded loop. -/
inductive ParseError where
  | warn : ParseWarning → ParseError
  | panic
  | outOfFuel
deriving DecidableEq

/-- A parse rule: only its name is relevant to the embedded code. -/
structure Rule where
  name : String
deriving DecidableEq

/-- List types, from crate::tree. -/
inductive ListType where
  | bullet
  | numbered
  | generic
deriving DecidableEq

def RULE_BULLET_LIST : Rule := { name := "bullet-list" }

def RULE_NUMBERED_LIST : Rule := { name := "numbered-list" }

/-- get_list_type from list.rs: maps a marker token to its rule and list type. -/
def get_list_type (token : Token) : Option (Rule × ListType) :=
  match token with
  | Token.bulletItem => some (RULE_BULLET_LIST, ListType.bullet)
  | Token.numberedItem => some (RULE_NUMBERED_LIST, ListType.numbered)
  | _ => none

/- ---------------------------------------------------------------- -/
/- Tokenizer                                                        -/
/- ---------------------------------------------------------------- -/

/-- Kind of the pending character run inside the tokenizer. -/
inductive RunKind where
  | ws
  | nl
  | txt
deriving DecidableEq

/-- Close the pending run and emit its token: a whitespace run, a line break
(one newline) or paragraph break (blank line, two or more newlines), or a text run. -/
def flushRun : Option (RunKind × List Char) → List ExtractedToken
  | none => []
  | some (RunKind.ws, cs) => [⟨Token.whitespace, ⟨cs⟩⟩]
  | some (RunKind.nl, cs) =>
      if cs.length ≥ 2 then [⟨Token.paragraphBreak, ⟨cs⟩⟩] else [⟨Token.lineBreak, ⟨cs⟩⟩]
  | some (RunKind.txt, cs) => [⟨Token.text, ⟨cs⟩⟩]

/-- Modelled from the spec: the tokenizer body (src/ftml/src/tokenizer is not in
the excerpt). Purely lexical scan: maximal runs of spaces become Whitespace,
runs of newlines become LineBreak (single) or ParagraphBreak (blank line),
a star or hash is a bullet or numbered marker, everything else accumulates
into generic text runs. -/
def tokenizeAux : List Char → Option (RunKind × List Char) → List ExtractedToken
  | [], run => flushRun run
  | c :: cs, run =>
    if c = ' ' then
      match run with
      | some (RunKind.ws, acc) => tokenizeAux cs (some (RunKind.ws, acc ++ [c]))
      | _ => flushRun run ++ tokenizeAux cs (some (RunKind.ws, [c]))
    else if c = '\n' then
      match run with
      | some (RunKind.nl, acc) => tokenizeAux cs (some (RunKind.nl, acc ++ [c]))
      | _ => flushRun run ++ tokenizeAux cs (some (RunKind.nl, [c]))
    else if c = '*' then
      flushRun run ++ [⟨Token.bulletItem, "*"⟩] ++ tokenizeAux cs none
    else if c = '#' then
      flushRun run ++ [⟨Token.numberedItem, "#"⟩] ++ tokenizeAux cs none
    else
      match run with
      | some (RunKind.txt, acc) => tokenizeAux cs (some (RunKind.txt, acc ++ [c]))
      | _ => flushRun run ++ tokenizeAux cs (some (RunKind.txt, [c]))

/-- Modelled from the spec: tokenize bounds the lexical scan with the
synthetic start/end sentinel tokens. -/
def tokenize (s : String) : List ExtractedToken :=
  ⟨Token.inputStart, ""⟩ :: (tokenizeAux s.data none ++ [⟨Token.inputEnd, ""⟩])

/- ---------------------------------------------------------------- -/
/- Depth-list nesting algorithm                                     -/
/- ---------------------------------------------------------------- -/

/-- An entry of the nested forest produced by depth processing:
either a payload item or a nested list of entries. -/
inductive DepthItem (α : Type) where
  | item : α → DepthItem α
  | list : List (DepthItem α) → DepthItem α

/-- The nested forest type. -/
abbrev DepthList (α : Type) := List (DepthItem α)

/-- One open stack frame: the recorded depth of its entry and the children
collected for that entry so far. -/
abbrev Frames (α : Type) := List (Nat × List (DepthItem α))

/-- Modelled from the spec: closing frames of the depth stack. Pop every frame
whose recorded depth is greater than or equal to the incoming depth; a closed
frame with a nonempty child list is attached as a nested list to the frame
below it (or to the root when no frame remains). -/
def popAux {α : Type} (d : Nat) (fd : Nat) (items : List (DepthItem α))
    (rest : Frames α) (root : List (DepthItem α)) :
    Frames α × List (DepthItem α) :=
  if d ≤ fd then
    let extra : List (DepthItem α) :=
      if items.isEmpty then [] else [DepthItem.list items]
    match rest with
    | [] => ([], root ++ extra)
    | (fd2, it2) :: rest2 => popAux d fd2 (it2 ++ extra) rest2 root
  else ((fd, items) :: rest, root)

/-- Entry point of frame closing, splitting off the top frame. -/
def popFrames {α : Type} (d : Nat) (stack : Frames α) (root : List (DepthItem α)) :
    Frames α × List (DepthItem α) :=
  match stack with
  | [] => ([], root)
  | (fd, items) :: rest => popAux d fd items rest root

/-- Modelled from the spec: processing one (depth, payload) entry. After closing
deeper-or-equal frames, the entry is attached as a child of the new stack top
(or the root), and a fresh frame is pushed for the entry. -/
def pdStep {α : Type} (st : Frames α × List (DepthItem α)) (entry : Nat × α) :
    Frames α × List (DepthItem α) :=
  let (stack, root) := popFrames entry.1 st.1 st.2
  match stack with
  | (fd, it) :: rest =>
      ((entry.1, []) :: (fd, it ++ [DepthItem.item entry.2]) :: rest, root)
  | [] => ([(entry.1, [])], root ++ [DepthItem.item entry.2])

/-- Modelled from the spec: process_depths (crate::parsing depth module, not in
the excerpt). Converts a flat ordered sequence of (depth, payload) pairs into a
nested forest, nesting each maximal contiguous run of strictly deeper entries
under the nearest preceding entry at a lesser depth; only the relative order of
depth values matters, not their magnitude. -/
def process_depths {α : Type} (entries : List (Nat × α)) : DepthList α :=
  let (stack, root) := entries.foldl pdStep ([], [])
  (popFrames 0 stack root).2

/- ---------------------------------------------------------------- -/
/- Document tree                                                    -/
/- ---------------------------------------------------------------- -/

/-- Container types distinguished by the text renderer; all remaining
variants collapse into the catch-all arm of the renderer's match. -/
inductive ContainerType where
  | div
  | paragraph
  | blockquote
  | header : Nat → ContainerType
  | other

mutual

/-- The Element tree from crate::tree, restricted to the variants matched by
the excerpted text renderer. -/
inductive Element where
  | container : ContainerType → List Element → Element
  | module : String → Element
  | text : String → Element
  | raw : String → Element
  | email : String → Element
  | anchor : List Element → List (String × String) → Element
  | link : String → Option String → Element
  | list : ListType → List ListItem → Element
  | radioButton : Bool → Element
  | checkBox : Bool → Element
  | collapsible : List Element → Option String → Option String → Bool → Bool → Element
  | color : List Element → Element
  | code : String → Option String → Element
  | html : String → Element
  | iframe : String → Element
  | lineBreak : Element
  | lineBreaks : Nat → Element
  | horizontalRule : Element

/-- A list item: a run of elements, or a nested sub-list. -/
inductive ListItem where
  | elements : List Element → ListItem
  | subList : Element → ListItem

end

mutual

/-- The item mapping of build_list_element over the forest entries. -/
def build_items (l : DepthList (List Element)) (ltype : ListType) : List ListItem :=
  match l with
  | [] => []
  | i :: rest => build_item i ltype :: build_items rest ltype
termination_by structural l

/-- The per-entry closure of build_list_element: a payload becomes
ListItem::Elements, a nested forest becomes ListItem::SubList (a sub-list is
a List element wrapping the recursively built items, inlined here from
build_list_element). -/
def build_item (i : DepthItem (List Element)) (ltype : ListType) : ListItem :=
  match i with
  | DepthItem.item elems => ListItem.elements elems
  | DepthItem.list l => ListItem.subList (Element.list ltype (build_items l ltype))
termination_by structural i

end

/-- build_list_element from list.rs: wraps a depth forest as a List element. -/
def build_list_element (l : DepthList (List Element)) (ltype : ListType) : Element :=
  Element.list ltype (build_items l ltype)

/- ---------------------------------------------------------------- -/
/- Parser state and the list rule                                   -/
/- ---------------------------------------------------------------- -/

/-- Modelled from the spec: the Parser holds the token stream and a cursor
position that is monotonically non-decreasing across a parse. -/
structure Parser where
  tokens : List ExtractedToken
  pos : Nat
deriving DecidableEq

/-- Modelled from the spec: the current token under the cursor; past the end
the stream behaves as its closing InputEnd sentinel. -/
def Parser.current (p : Parser) : ExtractedToken :=
  p.tokens.getD p.pos ⟨Token.inputEnd, ""⟩

/-- Modelled from the spec: step advances the cursor by one token. -/
def Parser.step (p : Parser) : Parser :=
  { p with pos := p.pos + 1 }

/-- Modelled from the spec: collect_consume (crate::parsing collect module, not
in the excerpt). Consumes tokens into literal text elements until a token in
close ends the context cleanly (the closing token is consumed) or a token in
invalid aborts the construct with a failure. Fuel replaces the unbounded loop. -/
def collect_consume (fuel : Nat) (p : Parser) (close invalid : List Token) :
    Except ParseError (List Element × Parser × List ParseWarning) :=
  match fuel with
  | 0 => Except.error ParseError.outOfFuel
  | f + 1 =>
    let t := p.current
    if t.token ∈ close then Except.ok ([], p.step, [])
    else if t.token ∈ invalid then Except.error (ParseError.warn ⟨ParseWarningKind.ruleFailed⟩)
    else
      match collect_consume f p.step close invalid with
      | Except.ok (elems, p', excs) => Except.ok (Element.text t.slice :: elems, p', excs)
      | Except.error e => Except.error e

/-- The line-collection loop of parse_list (list.rs lines 88-134): read an
optional whitespace run as the depth, require the marker token and exactly one
whitespace separator, collect the line's content, and append (depth, content);
any non-matching shape breaks out of the loop, returning the buffer collected
so far together with the parser as the loop left it. -/
def parse_list_loop (fuel : Nat) (p : Parser) (bullet_token : Token)
    (depths : List (Nat × List Element)) (excs : List ParseWarning) :
    Except ParseError (List (Nat × List Element) × Parser × List ParseWarning) :=
  match fuel with
  | 0 => Except.error ParseError.outOfFuel
  | f + 1 =>
    let c := p.current
    let headState : Option (Nat × Parser) :=
      if c.token = Token.whitespace then some (c.slice.length, p.step)
      else if c.token = bullet_token then some (0, p)
      else none
    match headState with
    | none => Except.ok (depths, p, excs)
    | some (depth, p1) =>
      if p1.current.token ≠ bullet_token then Except.ok (depths, p1, excs)
      else
        let p2 := p1.step
        if p2.current.token ≠ Token.whitespace then Except.ok (depths, p2, excs)
        else
          let p3 := p2.step
          match collect_consume (p3.tokens.length + 1) p3
              [Token.lineBreak, Token.inputEnd] [Token.paragraphBreak] with
          | Except.error e => Except.error e
          | Except.ok (elements, p4, newExcs) =>
            parse_list_loop f p4 bullet_token
              (depths ++ [(depth, elements)]) (excs ++ newExcs)

/-- parse_list from list.rs: asserts the rule starts at input start or after a
line break, steps past it, runs the line-collection loop, fails with a
RuleFailed warning when the collected buffer is empty, and otherwise nests the
buffer with process_depths and wraps it via build_list_element. -/
def parse_list (fuel : Nat) (p : Parser) (bullet_token : Token) :
    Except ParseError (Element × Parser × List ParseWarning) :=
  match get_list_type bullet_token with
  | none => Except.error ParseError.panic
  | some (_rule, list_type) =>
    if p.current.token = Token.inputStart ∨ p.current.token = Token.lineBreak then
      let p1 := p.step
      match parse_list_loop fuel p1 bullet_token [] [] with
      | Except.error e => Except.error e
      | Except.ok (depths, p2, excs) =>
        if depths.isEmpty then Except.error (ParseError.warn ⟨ParseWarningKind.ruleFailed⟩)
        else Except.ok (build_list_element (process_depths depths) list_type, p2, excs)
    else Except.error ParseError.panic

/- ---------------------------------------------------------------- -/
/- Render context and URL resolution                                -/
/- ---------------------------------------------------------------- -/

/-- Page information carried by the render context: the site the page belongs
to and the locale used for message resolution. -/
structure PageInfo where
  site : String
  locale : String

/-- Modelled from the spec: the host capability consumed by the renderer.
Each operation is a pure function producing the text the host contributes. -/
structure Handle where
  getUrl : String → String
  getLinkLabel : String → Option String → String
  getMessage : String → String → String
  renderModuleText : String → String

/-- Modelled from the spec: the text render context (render/text module, not in
the excerpt): output buffer, prefix stack, list-depth counter with per-depth
numbering indices, page info, and the host capability handle. -/
structure TextContext where
  buffer : String
  prefixes : List String
  listDepth : Nat
  listIndex : List Nat
  info : PageInfo
  handle : Handle

/-- Append a string to the output buffer. -/
def TextContext.push_str (ctx : TextContext) (s : String) : TextContext :=
  { ctx with buffer := ctx.buffer ++ s }

/-- Append a single character to the output buffer. -/
def TextContext.push (ctx : TextContext) (c : Char) : TextContext :=
  { ctx with buffer := ctx.buffer ++ ⟨[c]⟩ }

/-- Modelled from the spec: add_newline emits a newline and the active prefix
stack for the new line. -/
def TextContext.add_newline (ctx : TextContext) : TextContext :=
  { ctx with buffer := ctx.buffer ++ "\n" ++ String.join ctx.prefixes.reverse }

/-- Push a line prefix onto the prefix stack. -/
def TextContext.pushPrefixStr (ctx : TextContext) (pfx : String) : TextContext :=
  { ctx with prefixes := pfx :: ctx.prefixes }

/-- Pop the most recent line prefix off the prefix stack. -/
def TextContext.popPrefixStr (ctx : TextContext) : TextContext :=
  { ctx with prefixes := ctx.prefixes.tail }

/-- Increment the list-depth counter. -/
def TextContext.incr_list_depth (ctx : TextContext) : TextContext :=
  { ctx with listDepth := ctx.listDepth + 1 }

/-- Decrement the list-depth counter. -/
def TextContext.decr_list_depth (ctx : TextContext) : TextContext :=
  { ctx with listDepth := ctx.listDepth - 1 }

/-- Write a value into the per-depth index list, padding with zeroes. -/
def setListIdx : List Nat → Nat → Nat → List Nat
  | [], 0, v => [v]
  | [], d + 1, v => 0 :: setListIdx [] d v
  | _ :: rest, 0, v => v :: rest
  | x :: rest, d + 1, v => x :: setListIdx rest d v

/-- Modelled from the spec: next_list_index increments the numbering index of
the current list depth and returns the incremented value. -/
def TextContext.next_list_index (ctx : TextContext) : Nat × TextContext :=
  let i := ctx.listIndex.getD ctx.listDepth 0 + 1
  (i, { ctx with listIndex := setListIdx ctx.listIndex ctx.listDepth i })

/-- True when the pattern occurs as a contiguous run at the head of the list. -/
def isPrefOf : List Char → List Char → Bool
  | [], _ => true
  | _ :: _, [] => false
  | a :: as, b :: bs => a = b && isPrefOf as bs

/-- True when the pattern occurs contiguously anywhere in the list. -/
def containsSeq (pat : List Char) : List Char → Bool
  | [] => isPrefOf pat []
  | c :: rest => isPrefOf pat (c :: rest) || containsSeq pat rest

/-- Modelled from the spec: absolute-URL detection (crate::url::is_url, not in
the excerpt); a URL is absolute exactly when it carries a scheme separator,
and absolute URLs pass through resolution unchanged. -/
def is_url (url : String) : Bool :=
  containsSeq "://".data url.data

/-- True when the string ends with a slash character. -/
def endsWithSlash (s : String) : Bool :=
  s.data.getLast? = some '/'

/-- True when the string starts with a slash character. -/
def startsWithSlash (s : String) : Bool :=
  s.data.head? = some '/'

/-- The slash-joining logic of get_full_url (elements.rs lines 212-223):
push a slash when neither side has one, then pop the base's slash when both
sides have one, and append the relative part. -/
def joinUrl (base url : String) : String :=
  let full := if !endsWithSlash base && !startsWithSlash url then base ++ "/" else base
  let full2 := if endsWithSlash full && startsWithSlash url then ⟨full.data.dropLast⟩ else full
  full2 ++ url

/-- get_full_url from elements.rs: absolute URLs are returned unchanged;
relative URLs are joined to the host-provided site base. -/
def get_full_url (ctx : TextContext) (url : String) : String :=
  if is_url url then url
  else joinUrl (ctx.handle.getUrl ctx.info.site) url

/- ---------------------------------------------------------------- -/
/- Text renderer                                                    -/
/- ---------------------------------------------------------------- -/

/-- Modelled from the spec: the level-specific header prefix
(HeadingLevel::prefix, not in the excerpt). -/
def headerPrefixStr (level : Nat) : String :=
  ⟨List.replicate level '+'⟩ ++ " "

/-- The newline/prefix classification of the Container arm of render_element. -/
def containerStyle : ContainerType → Bool × Option String
  | ContainerType.div => (true, none)
  | ContainerType.paragraph => (true, none)
  | ContainerType.blockquote => (true, some "    ")
  | ContainerType.header level => (true, some (headerPrefixStr level))
  | ContainerType.other => (false, none)

/-- The indent loop of the List arm: push one space per unit of depth. -/
def pushIndent (ctx : TextContext) : Nat → TextContext
  | 0 => ctx
  | n + 1 => pushIndent (ctx.push ' ') n

/-- The LineBreaks arm of render_element: emit the given number of newlines. -/
def addNewlines (ctx : TextContext) : Nat → TextContext
  | 0 => ctx
  | n + 1 => addNewlines ctx.add_newline n

mutual

/-- render_element from elements.rs: exhaustive dispatch over Element variants
appending text to the context buffer. -/
def render_element (ctx : TextContext) (e : Element) : TextContext :=
  match e with
  | Element.container ctype elems =>
    let (add_newlines, pfx) := containerStyle ctype
    if add_newlines then
      let ctx1 := match pfx with
        | some s => ctx.pushPrefixStr s
        | none => ctx
      let ctx2 := render_elements ctx1.add_newline elems
      let ctx3 := if pfx.isSome then ctx2.popPrefixStr else ctx2
      ctx3.add_newline
    else render_elements ctx elems
  | Element.module descriptor =>
    ctx.push_str (ctx.handle.renderModuleText descriptor)
  | Element.text s => ctx.push_str s
  | Element.raw s => ctx.push_str s
  | Element.email s => ctx.push_str s
  | Element.anchor elems attributes =>
    let ctx1 := render_elements ctx elems
    match attributes.lookup "href" with
    | some href => ctx1.push_str (" [" ++ get_full_url ctx1 href ++ "]")
    | none => ctx1
  | Element.link url lab =>
    let resolved := ctx.handle.getLinkLabel url lab
    ctx.push_str (resolved ++ " [" ++ get_full_url ctx url ++ "]")
  | Element.list ltype items => render_items ctx ltype items
  | Element.radioButton checked =>
    ctx.push_str (if checked then "(*)" else "( )")
  | Element.checkBox checked =>
    ctx.push_str (if checked then "[X]" else "[ ]")
  | Element.collapsible elems show_text hide_text show_top show_bottom =>
    let st := match show_text with
      | some t => t
      | none => ctx.handle.getMessage ctx.info.locale "collapsible-open"
    let ht := match hide_text with
      | some t => t
      | none => ctx.handle.getMessage ctx.info.locale "collapsible-hide"
    let ctx1 := ctx.push_str ("\n" ++ st ++ "\n")
    let ctx2 := if show_top then ctx1.push_str (ht ++ "\n") else ctx1
    let ctx3 := render_elements ctx2 elems
    if show_bottom then ctx3.push_str (ht ++ "\n") else ctx3
  | Element.color elems => render_elements ctx elems
  | Element.code contents language =>
    let lang := match language with
      | some l => l
      | none => ""
    ctx.push_str ("```" ++ lang ++ "\n" ++ contents ++ "\n```")
  | Element.html contents =>
    ctx.push_str ("```html\n" ++ contents ++ "\n```")
  | Element.iframe url => ctx.push_str ("iframe: " ++ url)
  | Element.lineBreak => ctx.add_newline
  | Element.lineBreaks amount => addNewlines ctx amount
  | Element.horizontalRule =>
    let ctx1 := match ctx.buffer.data.getLast? with
      | some '\n' => ctx
      | none => ctx
      | _ => ctx.push '\n'
    ctx1.push_str "\n-----\n\n"
termination_by structural e

/-- render_elements from elements.rs: render a sequence of elements in order. -/
def render_elements (ctx : TextContext) (elems : List Element) : TextContext :=
  match elems with
  | [] => ctx
  | e :: rest => render_elements (render_element ctx e) rest
termination_by structural elems

/-- The per-item loop of the List arm of render_element: an Elements item is
emitted as depth indent, marker, content; a SubList item recurses with the
depth counter incremented before and decremented after. -/
def render_items (ctx : TextContext) (ltype : ListType) (items : List ListItem) :
    TextContext :=
  match items with
  | [] => ctx
  | ListItem.elements elems :: rest =>
    let depth := ctx.listDepth
    let ctx1 := pushIndent ctx depth
    let ctx2 := match ltype with
      | ListType.bullet => ctx1.push_str "* "
      | ListType.numbered =>
        let (index, ctx') := ctx1.next_list_index
        ctx'.push_str (toString index ++ ". ")
      | ListType.generic => ctx1
    let ctx3 := render_elements ctx2 elems
    render_items ctx3 ltype rest
  | ListItem.subList l :: rest =>
    let ctx1 := render_element ctx.incr_list_depth l
    render_items ctx1.decr_list_depth ltype rest
termination_by structural items

end

/- ---------------------------------------------------------------- -/
/- Transport routes (ftml-http)                                     -/
/- ---------------------------------------------------------------- -/

/-- CONTENT_LENGTH_LIMIT from routes.rs line 27: the enforced constant is
4 * 1024 * 1024 * 1024 bytes, while its trailing comment documents 2 MiB. -/
def CONTENT_LENGTH_LIMIT : Nat := 4 * 1024 * 1024 * 1024

/-- The limit stated by the comment accompanying CONTENT_LENGTH_LIMIT
in routes.rs: 2 MiB. -/
def DOCUMENTED_CONTENT_LENGTH_LIMIT : Nat := 2 * 1024 * 1024

/-- The text-payload routes of routes.rs, each paired with the content-length
limit its warp filter enforces; every filter names CONTENT_LENGTH_LIMIT. -/
def routeContentLengthLimits : List (String × Nat) :=
  [("include", CONTENT_LENGTH_LIMIT),
   ("preprocess", CONTENT_LENGTH_LIMIT),
   ("tokenize", CONTENT_LENGTH_LIMIT),
   ("tokenize/only", CONTENT_LENGTH_LIMIT),
   ("parse", CONTENT_LENGTH_LIMIT),
   ("parse/only", CONTENT_LENGTH_LIMIT),
   ("render/html", CONTENT_LENGTH_LIMIT),
   ("render/html/only", CONTENT_LENGTH_LIMIT)]

/-- The warp content_length_limit filter accepts a request body exactly when
its length does not exceed the configured limit. -/
def contentLengthAccepts (limit bodyLen : Nat) : Bool :=
  bodyLen ≤ limit

/- ---------------------------------------------------------------- -/
/- Sample host capability for concrete evaluations                  -/
/- ---------------------------------------------------------------- -/

/-- A concrete host capability used for closed-instance evaluations. -/
def sampleHandle : Handle :=
  { getUrl := fun _ => "site"
    getLinkLabel := fun _ lab => match lab with | some l => l | none => "label"
    getMessage := fun _ key => key
    renderModuleText := fun m => m }

/-- A concrete render context over sampleHandle with the given buffer. -/
def sampleCtx (buf : String) : TextContext :=
  { buffer := buf, prefixes := [], listDepth := 0, listIndex := []
    info := { site := "s", locale := "en" }, handle := sampleHandle }

/- ---------------------------------------------------------------- -/
/- Helper lemmas                                                    -/
/- ---------------------------------------------------------------- -/

theorem push_str_listDepth (ctx : TextContext) (s : String) :
    (ctx.push_str s).listDepth = ctx.listDepth := rfl

theorem push_listDepth (ctx : TextContext) (c : Char) :
    (ctx.push c).listDepth = ctx.listDepth := rfl

theorem add_newline_listDepth (ctx : TextContext) :
    ctx.add_newline.listDepth = ctx.listDepth := rfl

theorem pushPrefixStr_listDepth (ctx : TextContext) (s : String) :
    (ctx.pushPrefixStr s).listDepth = ctx.listDepth := rfl

theorem popPrefixStr_listDepth (ctx : TextContext) :
    ctx.popPrefixStr.listDepth = ctx.listDepth := rfl

theorem next_list_index_listDepth (ctx : TextContext) :
    ctx.next_list_index.2.listDepth = ctx.listDepth := rfl

theorem pushIndent_listDepth (ctx : TextContext) (n : Nat) :
    (pushIndent ctx n).listDepth = ctx.listDepth := by
  induction n generalizing ctx with
  | zero => rfl
  | succ n ih => exact (ih (ctx.push ' ')).trans rfl

theorem addNewlines_listDepth (ctx : TextContext) (n : Nat) :
    (addNewlines ctx n).listDepth = ctx.listDepth := by
  induction n generalizing ctx with
  | zero => rfl
  | succ n ih => exact (ih ctx.add_newline).trans rfl

mutual

/-- Text rendering never changes the list-depth counter: every variant either
leaves it untouched or releases exactly what it acquired. -/
theorem render_element_listDepth (ctx : TextContext) (e : Element) :
    (render_element ctx e).listDepth = ctx.listDepth := by
  cases e with
  | container ctype elems =>
    simp only [render_element]
    cases h : containerStyle ctype with
    | mk add_newlines pfx =>
      cases add_newlines with
      | false => simpa using render_elements_listDepth ctx elems
      | true =>
        cases pfx with
        | none => simpa using render_elements_listDepth ctx.add_newline elems
        | some s =>
          simpa using render_elements_listDepth (ctx.pushPrefixStr s).add_newline elems
  | module descriptor => rfl
  | text s => rfl
  | raw s => rfl
  | email s => rfl
  | anchor elems attributes =>
    simp only [render_element]
    cases h : attributes.lookup "href" with
    | none => simpa using render_elements_listDepth ctx elems
    | some href => simpa using render_elements_listDepth ctx elems
  | link url lab => rfl
  | list ltype items => exact render_items_listDepth ctx ltype items
  | radioButton checked => rfl
  | checkBox checked => rfl
  | collapsible elems show_text hide_text show_top show_bottom =>
    have h := fun c => render_elements_listDepth c elems
    simp only [render_element]
    cases show_top <;> cases show_bottom <;> simp [h, TextContext.push_str]
  | color elems => exact render_elements_listDepth ctx elems
  | code contents language => rfl
  | html contents => rfl
  | iframe url => rfl
  | lineBreak => rfl
  | lineBreaks amount => exact addNewlines_listDepth ctx amount
  | horizontalRule =>
    rw [render_element]
    split <;> simp [TextContext.push, TextContext.push_str]

theorem render_elements_listDepth (ctx : TextContext) (elems : List Element) :
    (render_elements ctx elems).listDepth = ctx.listDepth := by
  cases elems with
  | nil => rfl
  | cons e rest =>
    simp only [render_elements]
    exact (render_elements_listDepth (render_element ctx e) rest).trans
      (render_element_listDepth ctx e)

theorem render_items_listDepth (ctx : TextContext) (ltype : ListType)
    (items : List ListItem) :
    (render_items ctx ltype items).listDepth = ctx.listDepth := by
  cases items with
  | nil => rfl
  | cons i rest =>
    cases i with
    | elements elems =>
      simp only [render_items]
      cases ltype with
      | bullet =>
        exact (render_items_listDepth _ _ rest).trans
          ((render_elements_listDepth _ elems).trans
            ((push_str_listDepth _ _).trans (pushIndent_listDepth ctx _)))
      | numbered =>
        exact (render_items_listDepth _ _ rest).trans
          ((render_elements_listDepth _ elems).trans
            ((push_str_listDepth _ _).trans
              ((next_list_index_listDepth _).trans (pushIndent_listDepth ctx _))))
      | generic =>
        exact (render_items_listDepth _ _ rest).trans
          ((render_elements_listDepth _ elems).trans (pushIndent_listDepth ctx _))
    | subList l =>
      simp only [render_items]
      have h1 := render_element_listDepth ctx.incr_list_depth l
      have h2 := render_items_listDepth
        (render_element ctx.incr_list_depth l).decr_list_depth ltype rest
      rw [h2]
      show (render_element ctx.incr_list_depth l).listDepth - 1 = ctx.listDepth
      rw [h1]
      rfl

end

theorem pushIndent_eq (n : Nat) (ctx : TextContext) :
    pushIndent ctx n = { ctx with buffer := ctx.buffer ++ ⟨List.replicate n ' '⟩ } := by
  induction n generalizing ctx with
  | zero =>
    show ctx = _
    have h : ctx.buffer ++ ⟨List.replicate 0 ' '⟩ = ctx.buffer := String.append_empty _
    rw [h]
  | succ n ih =>
    show pushIndent (ctx.push ' ') n = _
    rw [ih (ctx.push ' ')]
    show ({ ctx with buffer := (ctx.buffer ++ ⟨[' ']⟩) ++ ⟨List.replicate n ' '⟩ } : TextContext) = _
    have h : (ctx.buffer ++ ⟨[' ']⟩) ++ ⟨List.replicate n ' '⟩
        = ctx.buffer ++ ⟨List.replicate (n + 1) ' '⟩ := by
      apply String.ext
      simp [String.data_append, List.replicate_succ]
    rw [h]

/- ---------------------------------------------------------------- -/
/- Claim theorems                                                   -/
/- ---------------------------------------------------------------- -/

/-- C1 (counterexample): at the concrete buffer "abc", text-rendering a
HorizontalRule produces "abc\n\n-----\n\n", with two newlines immediately
before the divider line, not the single newline the claim states
("abc\n-----\n\n"). -/
theorem horizontalRule_single_newline_counterexample :
    (render_element (sampleCtx "abc") Element.horizontalRule).buffer = "abc\n\n-----\n\n"
    ∧ (render_element (sampleCtx "abc") Element.horizontalRule).buffer ≠ "abc" ++ "\n-----\n\n" :=
  ⟨rfl, by decide⟩

/-- C1 (amended): text-rendering a HorizontalRule first ensures the buffer ends
in a newline, suppressing the duplicate when the buffer already ends in one or
is empty, and then appends a newline, the divider line, and a blank line; so
the divider is preceded by a blank line (two newlines) whenever the prior
buffer ended in at most one newline, and followed by a blank line. -/
theorem horizontalRule_buffer_eq (ctx : TextContext) :
    (render_element ctx Element.horizontalRule).buffer =
      (if ctx.buffer.data.getLast? = some '\n' ∨ ctx.buffer.data.getLast? = none
       then ctx.buffer else ctx.buffer ++ "\n") ++ "\n-----\n\n" := by
  rw [render_element]
  split
  · rw [if_pos (Or.inl (by assumption))]
    rfl
  · rw [if_pos (Or.inr (by assumption))]
    rfl
  · rename_i h1 h2
    rw [if_neg (by rintro (h | h); exacts [h1 h, h2 h])]
    rfl

/-- C1 amended, witness instance: the suppression case, a buffer already
ending in a newline, evaluated concretely. -/
theorem horizontalRule_buffer_eq_witness :
    (render_element (sampleCtx "x\n") Element.horizontalRule).buffer
      = "x\n" ++ "\n-----\n\n" :=
  (horizontalRule_buffer_eq (sampleCtx "x\n")).trans (by decide)

/-- C2: get_full_url returns absolute URLs unchanged, and joins a relative URL
to the host-provided site base with exactly one separating slash: the bases
"site" and "site/" combined with the urls "p" and "/p" all produce "site/p". -/
theorem get_full_url_join_normalizes :
    (∀ ctx url, is_url url = true → get_full_url ctx url = url)
    ∧ (∀ ctx : TextContext,
        ctx.handle.getUrl ctx.info.site = "site" ∨ ctx.handle.getUrl ctx.info.site = "site/" →
        get_full_url ctx "p" = "site/p" ∧ get_full_url ctx "/p" = "site/p") := by
  constructor
  · intro ctx url h
    simp [get_full_url, h]
  · intro ctx h
    have hp : is_url "p" = false := rfl
    have hsp : is_url "/p" = false := rfl
    cases h with
    | inl h => exact ⟨by simp [get_full_url, hp, h]; rfl, by simp [get_full_url, hsp, h]; rfl⟩
    | inr h => exact ⟨by simp [get_full_url, hp, h]; rfl, by simp [get_full_url, hsp, h]; rfl⟩

/-- C2 witness: concrete instances of both conjuncts — an absolute URL passes
through unchanged, and both slash combinations at base "site" normalize. -/
theorem get_full_url_join_normalizes_witness :
    is_url "https://e.x/y" = true
    ∧ get_full_url (sampleCtx "") "https://e.x/y" = "https://e.x/y"
    ∧ (sampleCtx "").handle.getUrl (sampleCtx "").info.site = "site"
    ∧ get_full_url (sampleCtx "") "p" = "site/p"
    ∧ get_full_url (sampleCtx "") "/p" = "site/p" :=
  ⟨rfl,
   get_full_url_join_normalizes.1 (sampleCtx "") "https://e.x/y" rfl,
   rfl,
   (get_full_url_join_normalizes.2 (sampleCtx "") (Or.inl rfl)).1,
   (get_full_url_join_normalizes.2 (sampleCtx "") (Or.inl rfl)).2⟩

/-- C3: depth-list nesting depends only on the relative order of depths — the
inputs [(0,a),(2,b),(4,c),(0,d)] and [(0,a),(1,b),(2,c),(0,d)] produce the
identical forest a, [b, [c]], d, with d a sibling of a and the 0-to-4 depth
jump producing exactly one nesting level. -/
theorem process_depths_relative_order_only :
    process_depths [(0, "a"), (2, "b"), (4, "c"), (0, "d")]
      = process_depths [(0, "a"), (1, "b"), (2, "c"), (0, "d")]
    ∧ process_depths [(0, "a"), (2, "b"), (4, "c"), (0, "d")]
      = [DepthItem.item "a",
         DepthItem.list [DepthItem.item "b", DepthItem.list [DepthItem.item "c"]],
         DepthItem.item "d"] :=
  ⟨rfl, rfl⟩

/-- C4: parsing the source "* a\n* b\n  * c\n* d" (tokenized, then consumed by
the bullet-list rule) yields a single bullet List element whose items are, in
order, Elements(a), Elements(b), a SubList holding a bullet list with the
single item Elements(c), and Elements(d), with no warnings. -/
theorem parse_list_nested_example :
    parse_list 100 ⟨tokenize "* a\n* b\n  * c\n* d", 0⟩ Token.bulletItem
      = Except.ok
          (Element.list ListType.bullet
            [ListItem.elements [Element.text "a"],
             ListItem.elements [Element.text "b"],
             ListItem.subList
               (Element.list ListType.bullet [ListItem.elements [Element.text "c"]]),
             ListItem.elements [Element.text "d"]],
           ⟨tokenize "* a\n* b\n  * c\n* d", 18⟩, []) :=
  rfl

/-- C5: when the first bullet marker is not followed by whitespace, the
line-collection loop ends with an empty buffer and parse_list returns the
RuleFailed warning — an ordinary rule failure, not a panic. -/
theorem parse_list_empty_buffer_rule_failed (fuel : Nat) (t : ExtractedToken)
    (rest : List ExtractedToken) (hf : 1 ≤ fuel) (ht : t.token ≠ Token.whitespace) :
    parse_list fuel
        ⟨⟨Token.inputStart, ""⟩ :: ⟨Token.bulletItem, "*"⟩ :: t :: rest, 0⟩
        Token.bulletItem
      = Except.error (ParseError.warn ⟨ParseWarningKind.ruleFailed⟩) := by
  cases fuel with
  | zero => omega
  | succ f =>
    simp [parse_list, parse_list_loop, get_list_type, Parser.current, Parser.step, ht]

/-- C5 witness: the concrete token stream of a bullet marker immediately
followed by text, evaluated at fuel 8. -/
theorem parse_list_empty_buffer_rule_failed_witness :
    parse_list 8
        ⟨[⟨Token.inputStart, ""⟩, ⟨Token.bulletItem, "*"⟩, ⟨Token.text, "a"⟩,
          ⟨Token.inputEnd, ""⟩], 0⟩
        Token.bulletItem
      = Except.error (ParseError.warn ⟨ParseWarningKind.ruleFailed⟩) :=
  parse_list_empty_buffer_rule_failed 8 ⟨Token.text, "a"⟩ [⟨Token.inputEnd, ""⟩]
    (by decide) (by decide)

/-- C6 (counterexample): parsing "* a\n  x" with the bullet rule ends with the
parser at position 6, past the whitespace run sitting at position 5 — the loop
consumed the whitespace run before discovering the missing marker, so that run
does not remain available, contradicting the claim (which requires the final
position to stay at 5). -/
theorem list_loop_whitespace_consumed_counterexample :
    parse_list 100 ⟨tokenize "* a\n  x", 0⟩ Token.bulletItem
      = Except.ok
          (Element.list ListType.bullet [ListItem.elements [Element.text "a"]],
           ⟨tokenize "* a\n  x", 6⟩, [])
    ∧ ((tokenize "* a\n  x").getD 5 ⟨Token.inputEnd, ""⟩).token = Token.whitespace
    ∧ parse_list 100 ⟨tokenize "* a\n  x", 0⟩ Token.bulletItem
      ≠ Except.ok
          (Element.list ListType.bullet [ListItem.elements [Element.text "a"]],
           ⟨tokenize "* a\n  x", 5⟩, []) :=
  ⟨rfl, rfl, by
    intro h
    have h2 := congrArg
      (fun r => match r with
        | Except.ok (_, p, _) => p.pos
        | Except.error _ => 0) h
    exact absurd h2 (by decide)⟩

/-- C6 (amended): when the token after a leading whitespace run is not the
configured marker token, the loop terminates at once, consuming exactly that
whitespace run and nothing more: no depth entry is added, no warning is
emitted, and the parser stands one token past where the iteration began, so
the non-marker token and everything after it remain available. -/
theorem list_loop_break_after_whitespace (fuel : Nat) (p : Parser)
    (bullet_token : Token) (depths : List (Nat × List Element))
    (excs : List ParseWarning) (hf : 1 ≤ fuel)
    (hw : p.current.token = Token.whitespace)
    (hb : p.step.current.token ≠ bullet_token) :
    parse_list_loop fuel p bullet_token depths excs = Except.ok (depths, p.step, excs) := by
  cases fuel with
  | zero => omega
  | succ f =>
    simp [parse_list_loop, hw, hb]

/-- C6 amended, witness instance: a whitespace run followed by text breaks the
loop after one step at a concrete parser state. -/
theorem list_loop_break_after_whitespace_witness :
    parse_list_loop 3 ⟨[⟨Token.whitespace, "  "⟩, ⟨Token.text, "x"⟩], 0⟩
        Token.bulletItem [] []
      = Except.ok ([], (⟨[⟨Token.whitespace, "  "⟩, ⟨Token.text, "x"⟩], 0⟩ : Parser).step, []) :=
  list_loop_break_after_whitespace 3 ⟨[⟨Token.whitespace, "  "⟩, ⟨Token.text, "x"⟩], 0⟩
    Token.bulletItem [] [] (by decide) rfl (by decide)

/-- C7: each Elements item of a List is emitted as one space per unit of the
current list depth, then the marker — "* " for Bullet, the incremented
per-depth numbering index and ". " for Numbered, nothing for Generic — then
the item's rendered content, after which rendering proceeds with the
remaining items. -/
theorem list_elements_item_emission (ctx : TextContext) (ltype : ListType)
    (es : List Element) (rest : List ListItem) :
    render_element ctx (Element.list ltype (ListItem.elements es :: rest)) =
      render_element
        (render_elements
          (match ltype with
           | ListType.bullet =>
             { ctx with buffer := ctx.buffer ++ ⟨List.replicate ctx.listDepth ' '⟩ ++ "* " }
           | ListType.numbered =>
             { ctx with
                 buffer := ctx.buffer ++ ⟨List.replicate ctx.listDepth ' '⟩
                   ++ (toString (ctx.listIndex.getD ctx.listDepth 0 + 1) ++ ". "),
                 listIndex := setListIdx ctx.listIndex ctx.listDepth
                   (ctx.listIndex.getD ctx.listDepth 0 + 1) }
           | ListType.generic =>
             { ctx with buffer := ctx.buffer ++ ⟨List.replicate ctx.listDepth ' '⟩ })
          es)
        (Element.list ltype rest) := by
  cases ltype with
  | bullet =>
    show render_items ctx ListType.bullet (ListItem.elements es :: rest) = _
    rw [render_items, pushIndent_eq]
    rfl
  | numbered =>
    show render_items ctx ListType.numbered (ListItem.elements es :: rest) = _
    rw [render_items, pushIndent_eq]
    rfl
  | generic =>
    show render_items ctx ListType.generic (ListItem.elements es :: rest) = _
    rw [render_items, pushIndent_eq]
    rfl

/-- C8: text-rendering any List element leaves the context's list-depth
counter exactly as it was before the call — each SubList item increments the
counter before rendering the nested list and decrements it afterwards,
unconditionally. -/
theorem list_render_preserves_depth (ctx : TextContext) (ltype : ListType)
    (items : List ListItem) :
    (render_element ctx (Element.list ltype items)).listDepth = ctx.listDepth :=
  render_element_listDepth ctx (Element.list ltype items)

/-- C9: every text-payload route enforces the same constant
CONTENT_LENGTH_LIMIT; that constant is 4 GiB (4294967296 bytes), which does
not agree with the 2 MiB limit its accompanying comment documents — a body one
byte over 2 MiB is accepted by the coded filter but would be rejected under
the documented limit, the two values differing by a factor of 2048. -/
theorem content_length_limit_contradicts_comment :
    routeContentLengthLimits.all (fun r => r.2 == CONTENT_LENGTH_LIMIT) = true
    ∧ CONTENT_LENGTH_LIMIT = 4294967296
    ∧ (CONTENT_LENGTH_LIMIT == DOCUMENTED_CONTENT_LENGTH_LIMIT) = false
    ∧ contentLengthAccepts CONTENT_LENGTH_LIMIT (DOCUMENTED_CONTENT_LENGTH_LIMIT + 1) = true
    ∧ contentLengthAccepts DOCUMENTED_CONTENT_LENGTH_LIMIT
        (DOCUMENTED_CONTENT_LENGTH_LIMIT + 1) = false
    ∧ CONTENT_LENGTH_LIMIT / DOCUMENTED_CONTENT_LENGTH_LIMIT = 2048 := by
  refine ⟨rfl, rfl, rfl, ?_, ?_, rfl⟩
  · decide
  · decide

/-- C10: text-rendering an Anchor whose attribute map has no "href" key
appends exactly the rendering of its child elements — no bracketed URL and no
separating space. -/
theorem anchor_without_href_renders_children (ctx : TextContext)
    (es : List Element) (attrs : List (String × String))
    (h : attrs.lookup "href" = none) :
    render_element ctx (Element.anchor es attrs) = render_elements ctx es := by
  rw [render_element, h]

/-- C10 witness: a concrete anchor with an empty attribute map. -/
theorem anchor_without_href_renders_children_witness :
    ([] : List (String × String)).lookup "href" = none
    ∧ render_element (sampleCtx "") (Element.anchor [Element.text "x"] [])
      = render_elements (sampleCtx "") [Element.text "x"] :=
  ⟨rfl, anchor_without_href_renders_children (sampleCtx "") [Element.text "x"] [] rfl⟩

end Ftml
